import Mathlib

/-!
# Verification of the bubod MySQL binlog replication client

Shallow embedding, in Lean 4, of the row-event decoder (`event_rows.go`),
the rotate handling of `parseEvent`, and the dump-loop filter / stop logic
of `DumpBinlog` (`binlog.go`), together with theorems settling the frozen
claims about the natural-language specification.

Modelling conventions:
* a `bytes.Buffer` is a `List Nat`, each element one byte (`< 256` on real
  wire data; the arithmetic wraps with `% 256` where Go converts);
* Go's tripartite outcome (normal return, error return, runtime panic)
  is the inductive `GoRes`: a nil-pointer dereference or an out-of-range
  slice index is `GoRes.panicked`, an error return is `GoRes.err`;
* machine integers are `Nat` / `Int` with explicit wrap-around where the
  Go conversion truncates (`int8`, `uint32`, ...);
* `driver.Value` is the tagged union `Value`; values that Go renders with
  the external `time` package (or raw IEEE-754 reinterpretation) carry
  their components / raw bytes, since the rendering is outside this
  repository's sources.
-/

namespace Bubod

/-- Outcome of running a piece of Go code: a normal result, an error
return, or a runtime panic (nil dereference, index out of range...). -/
inductive GoRes (α : Type) where
  | ok (a : α)
  | err (msg : String)
  | panicked (msg : String)
  deriving DecidableEq, Repr

/-- MySQL wire column types, as enumerated in the repository's field-type
constants (the numeric codes are irrelevant to every dispatch in scope,
which matches on the constants by name; unknown codes keep their byte). -/
inductive FieldType where
  | NULLT | TINY | SHORT | YEAR | INT24 | LONG | LONGLONG
  | FLOAT | DOUBLE | DECIMAL | NEWDECIMAL
  | VARCHAR | STRINGT | ENUM | SETT
  | BLOB | TINY_BLOB | MEDIUM_BLOB | LONG_BLOB | VAR_STRING | BIT
  | GEOMETRY | DATE | NEWDATE | TIME | TIME2
  | TIMESTAMP | TIMESTAMP2 | DATETIME | DATETIME2
  | UNKNOWN (code : Nat)
  deriving DecidableEq, Repr

/-- Modelled from the spec: the field-type-name table used only inside
error messages (`fieldTypeName` is not among the provided sources). -/
def fieldTypeName : FieldType → String
  | .NULLT => "FIELD_TYPE_NULL"
  | .TINY => "FIELD_TYPE_TINY"
  | .SHORT => "FIELD_TYPE_SHORT"
  | .YEAR => "FIELD_TYPE_YEAR"
  | .INT24 => "FIELD_TYPE_INT24"
  | .LONG => "FIELD_TYPE_LONG"
  | .LONGLONG => "FIELD_TYPE_LONGLONG"
  | .FLOAT => "FIELD_TYPE_FLOAT"
  | .DOUBLE => "FIELD_TYPE_DOUBLE"
  | .DECIMAL => "FIELD_TYPE_DECIMAL"
  | .NEWDECIMAL => "FIELD_TYPE_NEWDECIMAL"
  | .VARCHAR => "FIELD_TYPE_VARCHAR"
  | .STRINGT => "FIELD_TYPE_STRING"
  | .ENUM => "FIELD_TYPE_ENUM"
  | .SETT => "FIELD_TYPE_SET"
  | .BLOB => "FIELD_TYPE_BLOB"
  | .TINY_BLOB => "FIELD_TYPE_TINY_BLOB"
  | .MEDIUM_BLOB => "FIELD_TYPE_MEDIUM_BLOB"
  | .LONG_BLOB => "FIELD_TYPE_LONG_BLOB"
  | .VAR_STRING => "FIELD_TYPE_VAR_STRING"
  | .BIT => "FIELD_TYPE_BIT"
  | .GEOMETRY => "FIELD_TYPE_GEOMETRY"
  | .DATE => "FIELD_TYPE_DATE"
  | .NEWDATE => "FIELD_TYPE_NEWDATE"
  | .TIME => "FIELD_TYPE_TIME"
  | .TIME2 => "FIELD_TYPE_TIME2"
  | .TIMESTAMP => "FIELD_TYPE_TIMESTAMP"
  | .TIMESTAMP2 => "FIELD_TYPE_TIMESTAMP2"
  | .DATETIME => "FIELD_TYPE_DATETIME"
  | .DATETIME2 => "FIELD_TYPE_DATETIME2"
  | .UNKNOWN c => toString c

/-- `driver.Value` as stored into a row map by `parseEventRow`.  The
constructor records the Go dynamic type.  Values formatted through the
external Go `time` package carry their components; floats carry their
raw wire bytes (IEEE-754 reinterpretation is memory-level). -/
inductive Value where
  | null
  | boolean (b : Bool)
  | i8 (v : Int)
  | u8 (v : Nat)
  | i16 (v : Int)
  | u16 (v : Nat)
  | i32 (v : Int)
  | u32 (v : Nat)
  | i64 (v : Int)
  | u64 (v : Nat)
  | f32raw (bytes : List Nat)
  | f64raw (bytes : List Nat)
  | str (s : String)
  | bytesStr (bytes : List Nat)
  | strList (l : List String)
  | timeFromUnix (sec : Int)
  | dateTimeParts (y mo d h mi s : Int)
  deriving DecidableEq, Repr

/-- `true` exactly on the `Value.boolean` constructor (Go `bool`). -/
def Value.isBoolean : Value → Bool
  | .boolean _ => true
  | _ => false

/-! ## Signed reinterpretation and wrap-around helpers -/

/-- Go `int8(b)` for a wire byte: two's-complement reinterpretation. -/
def toInt8 (b : Nat) : Int := (((b + 128) % 256 : Nat) : Int) - 128

/-- Go `int16` reinterpretation of an unsigned 16-bit value. -/
def toInt16 (b : Nat) : Int := (((b + 2^15) % 2^16 : Nat) : Int) - 2^15

/-- Go `int32` reinterpretation of an unsigned 32-bit value. -/
def toInt32 (b : Nat) : Int := (((b + 2^31) % 2^32 : Nat) : Int) - 2^31

/-- Go `int64` reinterpretation of an unsigned 64-bit value. -/
def toInt64 (b : Nat) : Int := (((b + 2^63) % 2^64 : Nat) : Int) - 2^63

/-- Wrap an integer into the Go `int8` range (used for `int8` arithmetic,
whose additions and shifts truncate to 8 bits). -/
def int8wrap (z : Int) : Int := (z + 128) % 256 - 128

/-- Go `int8` addition (wraps). -/
def int8add (x y : Int) : Int := int8wrap (x + y)

/-- Go `int8` left shift by `k` (result type `int8`: truncates). -/
def int8shl (x : Int) (k : Nat) : Int := int8wrap (x * 2 ^ k)

/-! ## Byte-stream primitives

A `bytes.Buffer` is modelled as the list of its unread bytes. -/

/-- `buf.Next(n)`: up to `n` bytes (fewer when the buffer is short). -/
def bufNext (n : Nat) (s : List Nat) : List Nat × List Nat :=
  (s.take n, s.drop n)

/-- `buf.ReadByte()`: one byte, or `(0, io.EOF)` on an empty buffer. -/
def bufReadByte (s : List Nat) : Nat × List Nat × Option String :=
  match s with
  | [] => (0, [], some "EOF")
  | b :: rest => (b, rest, none)

/-- Little-endian value of a byte list (first byte least significant). -/
def leVal : List Nat → Nat
  | [] => 0
  | b :: rest => b + 256 * leVal rest

/-- Big-endian value of a byte list (first byte most significant). -/
def beVal (l : List Nat) : Nat := leVal l.reverse

/-- `binary.Read(buf, LittleEndian, &x)` for an `n`-byte integer target:
consumes exactly `n` bytes on success; on a short buffer it drains the
buffer, leaves the target zero and reports an error. -/
def binReadLE (n : Nat) (s : List Nat) : Nat × List Nat × Option String :=
  if n ≤ s.length then (leVal (s.take n), s.drop n, none)
  else (0, [], some "unexpected EOF")

/-- `binary.Read(buf, BigEndian, &x)` for an `n`-byte integer target. -/
def binReadBE (n : Nat) (s : List Nat) : Nat × List Nat × Option String :=
  if n ≤ s.length then (beVal (s.take n), s.drop n, none)
  else (0, [], some "unexpected EOF")

/-- Modelled from the spec: `read_fixed_len_uint(n)` / the repository's
`readFixedLengthInteger` — an `n`-byte little-endian read off the buffer
(spec section 4.1), erroring when the buffer is short. -/
def readFixedLengthInteger (s : List Nat) (n : Nat) :
    Nat × List Nat × Option String :=
  if n ≤ s.length then (leVal (s.take n), s.drop n, none)
  else (leVal s, [], some "unexpected EOF")

/-- Modelled from the spec: `read_length_encoded_int` — 1-byte prefix;
0xFC selects a 2-byte value, 0xFD a 3-byte value, 0xFE an 8-byte value
(spec section 4.1); smaller prefixes denote themselves. -/
def readLengthEncodedInt (s : List Nat) : Nat × List Nat × Option String :=
  match s with
  | [] => (0, [], some "EOF")
  | b :: rest =>
    if b = 0xFC then binReadLE 2 rest
    else if b = 0xFD then binReadLE 3 rest
    else if b = 0xFE then binReadLE 8 rest
    else (b, rest, none)

/-- Modelled from the spec: `bytesToUint16` — 2-byte little-endian value
of a byte slice; Go indexes the first two elements, so a shorter slice
panics (index out of range). -/
def bytesToUint16 (l : List Nat) : GoRes Nat :=
  match l with
  | b0 :: b1 :: _ => .ok (b0 + 256 * b1)
  | _ => .panicked "index out of range"

/-- Modelled from the spec: `bytesToUint24` — 3-byte little-endian. -/
def bytesToUint24 (l : List Nat) : GoRes Nat :=
  match l with
  | b0 :: b1 :: b2 :: _ => .ok (b0 + 256 * b1 + 65536 * b2)
  | _ => .panicked "index out of range"

/-- Modelled from the spec: `bytesToUint32` — 4-byte little-endian. -/
def bytesToUint32 (l : List Nat) : GoRes Nat :=
  match l with
  | b0 :: b1 :: b2 :: b3 :: _ =>
      .ok (b0 + 256 * b1 + 65536 * b2 + 16777216 * b3)
  | _ => .panicked "index out of range"

/-- Modelled from the spec: `read_uint64_be_by_bytes` — big-endian value
of the given byte slice (spec section 4.1, big-endian variants). -/
def read_uint64_be_by_bytes (l : List Nat) : Nat := beVal l

/-! ## Schema and table-map data model -/

/-- `column_schema_type` (fields as populated by `GetTableSchemaByName`,
`binlog.go`). -/
structure ColumnSchema where
  COLUMN_NAME : String := ""
  COLUMN_KEY : String := ""
  COLUMN_TYPE : String := ""
  enum_values : List String := []
  set_values : List String := []
  is_bool : Bool := false
  unsigned : Bool := false
  is_primary : Bool := false
  auto_increment : Bool := false
  deriving DecidableEq, Repr

/-- Per-column metadata (`ColumnType` struct, `event_tablemap.go`). -/
structure ColumnMeta where
  column_type : FieldType := .NULLT
  max_length : Nat := 0
  length_size : Nat := 0
  precision : Int := 0
  decimals : Int := 0
  size : Nat := 0
  bytes : Nat := 0
  bits : Nat := 0
  deriving DecidableEq, Repr

/-- `TableMapEvent` (the fields `parseEventRow` reads). -/
structure TableMapEvent where
  tableId : Nat := 0
  schemaName : String := ""
  tableName : String := ""
  columnTypes : List FieldType := []
  columnMetaData : List ColumnMeta := []
  deriving DecidableEq, Repr

/-- A decoded row: Go `map[string]driver.Value`, modelled as an
association list where `mapSet` overwrites an existing key. -/
def RowMap := List (String × Value)
  deriving DecidableEq, Repr

/-- `row[k] = v` on a Go map: insert or overwrite. -/
def mapSet (row : RowMap) (k : String) (v : Value) : RowMap :=
  (k, v) :: (List.filter (fun p => p.1 ≠ k) row)

/-- The key set of a row map. -/
def mapKeys (row : RowMap) : List String := row.map (·.1)

/-- `Bitfield.isSet(i)` (`event_tablemap.go`): tests bit `i % 8` of byte
`i / 8`; Go panics when the byte index is out of range. -/
def bitfieldIsSet (bits : List Nat) (i : Nat) : GoRes Bool :=
  match bits.get? (i / 8) with
  | none => .panicked "index out of range"
  | some b => .ok (b.land (Nat.shiftLeft 1 (i % 8)) ≠ 0)

/-! ## Formatting helpers (Go `strconv` / `fmt`) -/

/-- Left-pad a numeral string with zeros to width `w`. -/
def zeroPadTo (w : Nat) (s : String) : String :=
  String.mk (List.replicate (w - s.length) '0') ++ s

/-- Go `fmt.Sprintf` zero-padded decimal of total width `width` (the sign,
when present, counts towards the width and precedes the padding). -/
def goSprintf0d (width : Nat) (v : Int) : String :=
  if v < 0 then "-" ++ zeroPadTo (width - 1) (toString (-v))
  else zeroPadTo width (toString v)

/-- Go `strconv.ParseInt(s, 2, 10)` with the error discarded, as in the
BIT branch: empty input parses to 0 (syntax error ignored); a value above
the 10-bit signed maximum is clamped to 511 (range error ignored). -/
def goParseBin10 (s : List Char) : Int :=
  match s with
  | [] => 0
  | _ =>
    let v := s.foldl (fun acc c => 2 * acc + (if c = '1' then 1 else 0)) 0
    if v > 511 then 511 else (v : Int)

/-! ## NEWDECIMAL decoding (`event_rows.go`, FIELD_TYPE_NEWDECIMAL case) -/

/-- The compact-group byte-size table `compressed_bytes`, indexed by a Go
`int` (panics outside `[0, 9]`). -/
def compressedBytesGet (i : Int) : GoRes Nat :=
  if 0 ≤ i ∧ i < 10 then
    .ok (([0, 1, 1, 2, 2, 3, 3, 4, 4, 4] : List Nat).getD i.toNat 0)
  else .panicked "index out of range"

/-- One run of the nine-digit-group loop: each iteration reads 4 bytes,
takes their big-endian value XOR `mask`, and appends it zero-padded to
nine digits. -/
def newDecGroups (mask : Int) (cnt : Nat) (s : List Nat) (acc : String) :
    String × List Nat :=
  match cnt with
  | 0 => (acc, s)
  | n + 1 =>
    let d := s.take 4
    let value := Int.xor (read_uint64_be_by_bytes d) mask
    newDecGroups mask n (s.drop 4) (acc ++ goSprintf0d 9 value)

/-- The FIELD_TYPE_NEWDECIMAL case body.  The sign mask is `0` when bit 7
of the leading byte is set (non-negative) and `-1` otherwise; the leading
byte, with bit 7 flipped, is pushed back and consumed as part of the
first group.  The leading compact group goes through a 4-byte big-endian
`binary.Read` whose error is discarded, so it yields 0 unless its size is
exactly 4.  NOTE: the second group loop below (after the decimal point)
iterates `uncomp_integral` times, exactly as in the source, lines
334-337 of event_rows.go. -/
def decodeNewDecimal (precision decimals : Int) (s : List Nat) :
    GoRes (String × List Nat) :=
  let integral := precision - decimals
  let uncomp_integral := Int.tdiv integral 9
  let uncomp_fractional := Int.tdiv decimals 9
  let comp_integral := integral - uncomp_integral * 9
  let comp_fractional := decimals - uncomp_fractional * 9
  let _ := uncomp_fractional
  match compressedBytesGet comp_integral with
  | .panicked m => .panicked m
  | .err m => .err m
  | .ok size =>
    let b := (bufReadByte s).1
    let rest := (bufReadByte s).2.1
    let res0 : String := if b.land 128 ≠ 0 then "" else "-"
    let mask : Int := if b.land 128 ≠ 0 then 0 else -1
    let s1 := (b ^^^ 128) :: rest
    let lead :=
      if size > 0 then
        let d := s1.take size
        let v1 : Int := if d.length = 4 then toInt32 (beVal d) else 0
        (res0 ++ toString (Int.xor v1 mask), s1.drop size)
      else (res0, s1)
    let ip := newDecGroups mask uncomp_integral.toNat lead.2 lead.1
    let fp := newDecGroups mask uncomp_integral.toNat ip.2 (ip.1 ++ ".")
    match compressedBytesGet comp_fractional with
    | .panicked m => .panicked m
    | .err m => .err m
    | .ok size2 =>
      if size2 > 0 then
        let d := fp.2.take size2
        let value := Int.xor (read_uint64_be_by_bytes d) mask
        .ok (fp.1 ++ goSprintf0d comp_fractional.toNat value, fp.2.drop size2)
      else .ok (fp.1, fp.2)

/-- The NEWDECIMAL layout exactly as claim C3 and spec section 4.4 state
it: identical to `decodeNewDecimal` except that the fractional loop runs
`⌊decimals/9⌋` times.  Declared only to compare against the source
translation. -/
def specNewDecimal (precision decimals : Int) (s : List Nat) :
    GoRes (String × List Nat) :=
  let integral := precision - decimals
  let uncomp_integral := Int.tdiv integral 9
  let uncomp_fractional := Int.tdiv decimals 9
  let comp_integral := integral - uncomp_integral * 9
  let comp_fractional := decimals - uncomp_fractional * 9
  match compressedBytesGet comp_integral with
  | .panicked m => .panicked m
  | .err m => .err m
  | .ok size =>
    let b := (bufReadByte s).1
    let rest := (bufReadByte s).2.1
    let res0 : String := if b.land 128 ≠ 0 then "" else "-"
    let mask : Int := if b.land 128 ≠ 0 then 0 else -1
    let s1 := (b ^^^ 128) :: rest
    let lead :=
      if size > 0 then
        let d := s1.take size
        let v1 : Int := if d.length = 4 then toInt32 (beVal d) else 0
        (res0 ++ toString (Int.xor v1 mask), s1.drop size)
      else (res0, s1)
    let ip := newDecGroups mask uncomp_integral.toNat lead.2 lead.1
    let fp := newDecGroups mask uncomp_fractional.toNat ip.2 (ip.1 ++ ".")
    match compressedBytesGet comp_fractional with
    | .panicked m => .panicked m
    | .err m => .err m
    | .ok size2 =>
      if size2 > 0 then
        let d := fp.2.take size2
        let value := Int.xor (read_uint64_be_by_bytes d) mask
        .ok (fp.1 ++ goSprintf0d comp_fractional.toNat value, fp.2.drop size2)
      else .ok (fp.1, fp.2)

/-! ## The remaining per-type cases of `parseEventRow`'s switch

Each returns `(inserted?, rest)`: `inserted? = none` means the branch
stored nothing under the column's key (only the YEAR branch with a zero
byte does that); `GoRes.err` corresponds to the `e != nil` return at the
bottom of the column loop, which discards the whole row. -/

/-- FIELD_TYPE_TINY. -/
def decodeTiny (sch : ColumnSchema) (s : List Nat) :
    GoRes (Option Value × List Nat) :=
  let (b, rest, e) := bufReadByte s
  match e with
  | some m => .err m
  | none =>
    let fallback : Value := if sch.unsigned then .u8 b else .i8 (toInt8 b)
    let v : Value :=
      if sch.is_bool then
        match b with
        | 1 => .boolean true
        | 0 => .boolean false
        | _ => fallback
      else fallback
    .ok (some v, rest)

/-- FIELD_TYPE_SHORT. -/
def decodeShort (sch : ColumnSchema) (s : List Nat) :
    GoRes (Option Value × List Nat) :=
  let (v, rest, e) := binReadLE 2 s
  match e with
  | some m => .err m
  | none =>
    .ok (some (if sch.unsigned then .u16 v else .i16 (toInt16 v)), rest)

/-- FIELD_TYPE_YEAR: the value is stored only when the read succeeded and
the byte is non-zero; a zero byte leaves the key absent. -/
def decodeYear (s : List Nat) : GoRes (Option Value × List Nat) :=
  let (b, rest, e) := bufReadByte s
  match e with
  | some m => .err m
  | none =>
    if b ≠ 0 then .ok (some (.str (toString (b + 1900))), rest)
    else .ok (none, rest)

/-- FIELD_TYPE_INT24.  The unsigned path is a plain 3-byte little-endian
read.  The signed path reads three `int8` values (the `binary.Read`
errors are discarded) and computes `a + (b<<8) + (c<<16)` in Go `int8`
arithmetic — the shifts truncate to 8 bits. -/
def decodeInt24 (sch : ColumnSchema) (s : List Nat) :
    GoRes (Option Value × List Nat) :=
  if sch.unsigned then
    let (v, rest, e) := readFixedLengthInteger s 3
    match e with
    | some m => .err m
    | none => .ok (some (.u32 (v % 2 ^ 32)), rest)
  else
    let (a, s1, _) := bufReadByte s
    let (b, s2, _) := bufReadByte s1
    let (c, s3, _) := bufReadByte s2
    let v := int8add (int8add (toInt8 a) (int8shl (toInt8 b) 8))
      (int8shl (toInt8 c) 16)
    .ok (some (.i32 v), s3)

/-- FIELD_TYPE_LONG. -/
def decodeLong (sch : ColumnSchema) (s : List Nat) :
    GoRes (Option Value × List Nat) :=
  let (v, rest, e) := binReadLE 4 s
  match e with
  | some m => .err m
  | none =>
    .ok (some (if sch.unsigned then .u32 v else .i32 (toInt32 v)), rest)

/-- FIELD_TYPE_LONGLONG. -/
def decodeLongLong (sch : ColumnSchema) (s : List Nat) :
    GoRes (Option Value × List Nat) :=
  let (v, rest, e) := binReadLE 8 s
  match e with
  | some m => .err m
  | none =>
    .ok (some (if sch.unsigned then .u64 v else .i64 (toInt64 v)), rest)

/-- FIELD_TYPE_ENUM: a 1-byte index when the metadata size is 1 (read
error discarded), otherwise a 2-byte little-endian index; the stored
value is `enum_values[index-1]`, so an index outside `[1, len]` panics. -/
def decodeEnum (sch : ColumnSchema) (meta : ColumnMeta) (s : List Nat) :
    GoRes (Option Value × List Nat) :=
  let idxRead : GoRes (Nat × List Nat) :=
    if meta.size = 1 then
      let (b, rest, _) := bufReadByte s
      .ok (b, rest)
    else
      match bytesToUint16 (s.take meta.size) with
      | .panicked m => .panicked m
      | .err m => .err m
      | .ok v => .ok (v, s.drop meta.size)
  match idxRead with
  | .panicked m => .panicked m
  | .err m => .err m
  | .ok (index, rest) =>
    if 1 ≤ index ∧ index - 1 < sch.enum_values.length then
      .ok (some (.str (sch.enum_values.getD (index - 1) "")), rest)
    else .panicked "index out of range"

/-- FIELD_TYPE_SET.  The `case 0` arm stores nil and `break`s — but a Go
`break` only leaves the switch, so execution continues into the common
member-collection code, which overwrites the nil with the (then empty)
member list.  The emitted list enumerates, in declaration order, the
members whose bit is set (Go collects them via a map whose iteration
order is unspecified; the member multiset is what is determined). -/
def decodeSet (sch : ColumnSchema) (meta : ColumnMeta) (s : List Nat) :
    GoRes (Option Value × List Nat) :=
  let idxRead : GoRes (Nat × List Nat) :=
    match meta.size with
    | 0 => .ok (0, s)
    | 1 =>
      let (b, rest, _) := bufReadByte s
      .ok (b, rest)
    | 2 =>
      match bytesToUint16 (s.take 2) with
      | .panicked m => .panicked m
      | .err m => .err m
      | .ok v => .ok (v, s.drop 2)
    | 3 =>
      match bytesToUint24 (s.take 3) with
      | .panicked m => .panicked m
      | .err m => .err m
      | .ok v => .ok (v, s.drop 3)
    | 4 =>
      match bytesToUint32 (s.take 4) with
      | .panicked m => .panicked m
      | .err m => .err m
      | .ok v => .ok (v, s.drop 4)
    | _ + 5 => .ok (0, s)
  match idxRead with
  | .panicked m => .panicked m
  | .err m => .err m
  | .ok (index, rest) =>
    let f := (sch.set_values.enum.filter
      (fun p => index.land (2 ^ p.1) > 0)).map (·.2)
    .ok (some (.strList f), rest)

/-- FIELD_TYPE_VARCHAR: 2-byte length when the declared maximum length
exceeds 255, else 1 byte; a buffer shorter than the length is `io.EOF`. -/
def decodeVarchar (meta : ColumnMeta) (s : List Nat) :
    GoRes (Option Value × List Nat) :=
  let lenRead : Nat × List Nat × Option String :=
    if meta.max_length > 255 then binReadLE 2 s
    else bufReadByte s
  let (len, rest, e) := lenRead
  match e with
  | some m => .err m
  | none =>
    if rest.length < len then .err "EOF"
    else .ok (some (.bytesStr (rest.take len)), rest.drop len)

/-- FIELD_TYPE_STRING: 1-byte length then the bytes (no length check). -/
def decodeStringField (s : List Nat) : GoRes (Option Value × List Nat) :=
  let (len, rest, e) := bufReadByte s
  match e with
  | some m => .err m
  | none => .ok (some (.bytesStr (rest.take len)), rest.drop len)

/-- FIELD_TYPE_BLOB / TINY_BLOB / MEDIUM_BLOB / LONG_BLOB / VAR_STRING:
`length_size`-byte little-endian length then the bytes. -/
def decodeBlob (meta : ColumnMeta) (s : List Nat) :
    GoRes (Option Value × List Nat) :=
  let (len, rest, e) := readFixedLengthInteger s meta.length_size
  match e with
  | some m => .err m
  | none => .ok (some (.bytesStr (rest.take len)), rest.drop len)

/-- The binary rendering of one BIT chunk: the low `endBits` bits of `b`,
most significant first (the source collects them LSB-first and appends
them reversed). -/
def bitChunkStr (endBits : Nat) (b : Nat) : List Char :=
  (List.range endBits).reverse.map
    (fun bit => if b.land (2 ^ bit) > 0 then '1' else '0')

/-- The BIT read loop over `bytesMeta` chunks; `k` is the running chunk
index (the first chunk holds the residual high bits).  Carries the last
`ReadByte` error, which is what the column loop checks afterwards. -/
def bitLoop (bitsMeta bytesMeta : Nat) (k : Nat) (remaining : Nat)
    (s : List Nat) (acc : List Char) (e : Option String) :
    List Char × List Nat × Option String :=
  match remaining with
  | 0 => (acc, s, e)
  | r + 1 =>
    let (b, rest, e2) := bufReadByte s
    let endBits :=
      if k = 0 then
        if bytesMeta = 1 then bitsMeta
        else if bitsMeta % 8 = 0 then 8 else bitsMeta % 8
      else 8
    bitLoop bitsMeta bytesMeta (k + 1) r rest (acc ++ bitChunkStr endBits b) e2

/-- FIELD_TYPE_BIT: concatenate the chunk renderings and parse the binary
string via `strconv.ParseInt(resp, 2, 10)` (error discarded). -/
def decodeBit (meta : ColumnMeta) (s : List Nat) :
    GoRes (Option Value × List Nat) :=
  let (resp, rest, e) := bitLoop meta.bits meta.bytes 0 meta.bytes s [] none
  let bitInt := goParseBin10 resp
  match e with
  | some m => .err m
  | none => .ok (some (.i64 bitInt), rest)

/-- FIELD_TYPE_DATE / FIELD_TYPE_NEWDATE: 3 bytes little-endian; zero is
null; otherwise `YYYY-(M)M-(D)D` with zero padding below 10.  Go indexes
`data[0..2]`, so fewer than 3 remaining bytes panic. -/
def decodeDate (s : List Nat) : GoRes (Option Value × List Nat) :=
  match s.take 3 with
  | d0 :: d1 :: d2 :: _ =>
    let rest := s.drop 3
    let timeInt := d0 + d1 * 256 + d2 * 65536
    if timeInt = 0 then .ok (some .null, rest)
    else
      let year := (timeInt.land (((2 ^ 15) - 1) * 2 ^ 9)) >>> 9
      let month := (timeInt.land (((2 ^ 4) - 1) * 2 ^ 5)) >>> 5
      let day := timeInt.land ((2 ^ 5) - 1)
      let monthStr := if month ≥ 10 then toString month
        else "0" ++ toString month
      let dayStr := if day ≥ 10 then toString day else "0" ++ toString day
      .ok (some (.str (toString year ++ "-" ++ monthStr ++ "-" ++ dayStr)),
        rest)
  | _ => .panicked "index out of range"

/-- FIELD_TYPE_TIME: 3 bytes little-endian; zero is null; otherwise the
decimal packing `HHMMSS`, padded with `"0"` only when the component is at
most 10 (the source compares with `>`, so 10 itself gets a leading 0). -/
def decodeTime (s : List Nat) : GoRes (Option Value × List Nat) :=
  match s.take 3 with
  | d0 :: d1 :: d2 :: _ =>
    let rest := s.drop 3
    let timeInt := d0 + d1 * 256 + d2 * 65536
    if timeInt = 0 then .ok (some .null, rest)
    else
      let hour := timeInt / 10000
      let minute := (timeInt % 10000) / 100
      let second := timeInt % 100
      let minuteStr := if minute > 10 then toString minute
        else "0" ++ toString minute
      let secondStr := if second > 10 then toString second
        else "0" ++ toString second
      .ok (some (.str (toString hour ++ ":" ++ minuteStr ++ ":" ++ secondStr)),
        rest)
  | _ => .panicked "index out of range"

/-- `read_binary_slice` (`event_rows.go`): right-shift then mask.  All
call sites satisfy `start + size ≤ data_length`. -/
def read_binary_slice (binary start size data_length : Nat) : Nat :=
  (binary >>> (data_length - (start + size))).land ((2 ^ size) - 1)

/-- FIELD_TYPE_TIME2: three big-endian bytes (read errors discarded) form
a 24-bit integer held in a `uint64`; values with the top bit set have
`0x1000000` subtracted, which wraps around the unsigned 64-bit range.
Components are extracted with `read_binary_slice` and padded like TIME. -/
def decodeTime2 (s : List Nat) : GoRes (Option Value × List Nat) :=
  let (a, s1, _) := bufReadByte s
  let (b, s2, _) := bufReadByte s1
  let (c, s3, _) := bufReadByte s2
  let timeInt := ((a <<< 16).lor ((b <<< 8).lor c))
  let timeInt2 :=
    if timeInt ≥ 0x800000 then (timeInt + 2 ^ 64 - 0x1000000) % 2 ^ 64
    else timeInt
  let hour := read_binary_slice timeInt2 2 10 24
  let minute := read_binary_slice timeInt2 12 6 24
  let second := read_binary_slice timeInt2 18 6 24
  let minuteStr := if minute > 10 then toString minute
    else "0" ++ toString minute
  let secondStr := if second > 10 then toString second
    else "0" ++ toString second
  .ok (some (.str (toString hour ++ ":" ++ minuteStr ++ ":" ++ secondStr)), s3)

/-- FIELD_TYPE_TIMESTAMP: `bytesToUint32` over the next 4 bytes (panics
when fewer remain); rendered by the external Go time package, so the
value carries the epoch seconds. -/
def decodeTimestamp (s : List Nat) : GoRes (Option Value × List Nat) :=
  match bytesToUint32 (s.take 4) with
  | .panicked m => .panicked m
  | .err m => .err m
  | .ok v => .ok (some (.timeFromUnix v), s.drop 4)

/-- FIELD_TYPE_TIMESTAMP2: big-endian `int32` (read error discarded). -/
def decodeTimestamp2 (s : List Nat) : GoRes (Option Value × List Nat) :=
  let (v, rest, _) := binReadBE 4 s
  .ok (some (.timeFromUnix (toInt32 v)), rest)

/-- FIELD_TYPE_DATETIME: little-endian `int64` packing the decimal string
`YYYYMMDDHHMMSS`; component extraction uses Go's truncating `/` and `%`.
The components feed `time.Date(...).Format`, which is external, so the
value carries them. -/
def decodeDatetime (s : List Nat) : GoRes (Option Value × List Nat) :=
  let (t0, rest, e) := binReadLE 8 s
  match e with
  | some m => .err m
  | none =>
    let t := toInt64 t0
    let second := Int.tmod t 100
    let minute := Int.tdiv (Int.tmod t 10000) 100
    let hour := Int.tdiv (Int.tmod t 1000000) 10000
    let d := Int.tdiv t 1000000
    let day := Int.tmod d 100
    let month := Int.tdiv (Int.tmod d 10000) 100
    let year := Int.tdiv d 10000
    .ok (some (.dateTimeParts year month day hour minute second), rest)

/-- FIELD_TYPE_DATETIME2 (`read_datetime2`): a big-endian `uint32` and
one further byte (read errors discarded) form the 40-bit packed value;
components via `read_binary_slice`. -/
def decodeDatetime2 (s : List Nat) : GoRes (Option Value × List Nat) :=
  let (a, s1, _) := binReadBE 4 s
  let (b, s2, _) := bufReadByte s1
  let dataInt := b + (a <<< 8)
  let year_month := read_binary_slice dataInt 1 17 40
  let year := year_month / 13
  let month := year_month % 13
  let days := read_binary_slice dataInt 18 5 40
  let hours := read_binary_slice dataInt 23 5 40
  let minute := read_binary_slice dataInt 28 6 40
  let second := read_binary_slice dataInt 34 6 40
  .ok (some (.dateTimeParts year month days hours minute second), s2)

/-- One full arm of `parseEventRow`'s type switch for column `i`.  The
dispatch type comes from `columnMetaData[i]`; the DECIMAL, GEOMETRY and
default arms build their message from `columnTypes[i]` (panicking when
that index is out of range, as the Go slice access would). -/
def decodeColumn (tm : TableMapEvent) (i : Nat) (sch : ColumnSchema)
    (meta : ColumnMeta) (s : List Nat) : GoRes (Option Value × List Nat) :=
  match meta.column_type with
  | .NULLT => .ok (some .null, s)
  | .TINY => decodeTiny sch s
  | .SHORT => decodeShort sch s
  | .YEAR => decodeYear s
  | .INT24 => decodeInt24 sch s
  | .LONG => decodeLong sch s
  | .LONGLONG => decodeLongLong sch s
  | .FLOAT =>
    if 4 ≤ s.length then .ok (some (.f32raw (s.take 4)), s.drop 4)
    else .err "unexpected EOF"
  | .DOUBLE =>
    if 8 ≤ s.length then .ok (some (.f64raw (s.take 8)), s.drop 8)
    else .err "unexpected EOF"
  | .DECIMAL =>
    match tm.columnTypes.get? i with
    | none => .panicked "index out of range"
    | some t =>
      .err ("parseEventRow unimplemented for field type " ++ fieldTypeName t)
  | .NEWDECIMAL =>
    match decodeNewDecimal meta.precision meta.decimals s with
    | .panicked m => .panicked m
    | .err m => .err m
    | .ok (r, rest) => .ok (some (.str r), rest)
  | .VARCHAR => decodeVarchar meta s
  | .STRINGT => decodeStringField s
  | .ENUM => decodeEnum sch meta s
  | .SETT => decodeSet sch meta s
  | .BLOB => decodeBlob meta s
  | .TINY_BLOB => decodeBlob meta s
  | .MEDIUM_BLOB => decodeBlob meta s
  | .LONG_BLOB => decodeBlob meta s
  | .VAR_STRING => decodeBlob meta s
  | .BIT => decodeBit meta s
  | .GEOMETRY =>
    match tm.columnTypes.get? i with
    | none => .panicked "index out of range"
    | some t =>
      .err ("parseEventRow unimplemented for field type " ++ fieldTypeName t)
  | .DATE => decodeDate s
  | .NEWDATE => decodeDate s
  | .TIME => decodeTime s
  | .TIME2 => decodeTime2 s
  | .TIMESTAMP => decodeTimestamp s
  | .TIMESTAMP2 => decodeTimestamp2 s
  | .DATETIME => decodeDatetime s
  | .DATETIME2 => decodeDatetime2 s
  | .UNKNOWN _ =>
    match tm.columnTypes.get? i with
    | none => .panicked "index out of range"
    | some t => .err ("Unknown FieldType " ++ fieldTypeName t)

/-! ## `parseEventRow` (`event_rows.go`) -/

/-- The per-column loop of `parseEventRow`: for column `i`, look up the
schema entry (a Go index, panicking when absent), consult the NULL
bitmap, and otherwise decode via the type switch, storing the result
under the column's name. -/
def parseRowCols (tm : TableMapEvent) (schemas : List ColumnSchema)
    (nullBM : List Nat) (i remaining : Nat) (s : List Nat) (row : RowMap) :
    GoRes (RowMap × List Nat) :=
  match remaining with
  | 0 => .ok (row, s)
  | r + 1 =>
    match schemas.get? i with
    | none => .panicked "index out of range"
    | some sch =>
      match bitfieldIsSet nullBM i with
      | .panicked m => .panicked m
      | .err m => .err m
      | .ok true =>
        parseRowCols tm schemas nullBM (i + 1) r s
          (mapSet row sch.COLUMN_NAME .null)
      | .ok false =>
        match tm.columnMetaData.get? i with
        | none => .panicked "index out of range"
        | some meta =>
          match decodeColumn tm i sch meta s with
          | .panicked m => .panicked m
          | .err m => .err m
          | .ok (opt, s2) =>
            let row2 := match opt with
              | some v => mapSet row sch.COLUMN_NAME v
              | none => row
            parseRowCols tm schemas nullBM (i + 1) r s2 row2

/-- `parseEventRow`: dereferences the table-map pointer (a Go nil —
absent cache entry — panics), reads the NULL bitmap sized from the
column count, then runs the column loop. -/
def parseEventRow (tableMap : Option TableMapEvent)
    (schemas : List ColumnSchema) (s : List Nat) :
    GoRes (RowMap × List Nat) :=
  match tableMap with
  | none => .panicked "invalid memory address or nil pointer dereference"
  | some tm =>
    let columnsCount := tm.columnTypes.length
    let bitfieldSize := (columnsCount + 7) / 8
    parseRowCols tm schemas (s.take bitfieldSize) 0 columnsCount
      (s.drop bitfieldSize) []

/-! ## Events, parser state and `parseRowsEvent` (`binlog.go`,
`event_rows.go`) -/

/-- The common 19-byte event header (`event_header.go`), all fields
little-endian. -/
structure EventHeader where
  Timestamp : Nat := 0
  EventType : Nat := 0
  ServerId : Nat := 0
  EventSize : Nat := 0
  LogPos : Nat := 0
  Flags : Nat := 0
  deriving DecidableEq, Repr

/-- `binary.Read` of the 19-byte `EventHeader` struct: all or nothing. -/
def readEventHeader (s : List Nat) : EventHeader × List Nat × Option String :=
  if 19 ≤ s.length then
    ({ Timestamp := leVal (s.take 4)
       EventType := leVal ((s.drop 4).take 1)
       ServerId := leVal ((s.drop 5).take 4)
       EventSize := leVal ((s.drop 9).take 4)
       LogPos := leVal ((s.drop 13).take 4)
       Flags := leVal ((s.drop 17).take 2) }, s.drop 19, none)
  else ({}, [], some "unexpected EOF")

/-- Modelled from the spec (section 4.2): the event-type codes consumed
by the decoders in scope. -/
def QUERY_EVENT : Nat := 2
/-- Modelled from the spec (section 4.2). -/
def ROTATE_EVENT : Nat := 4
/-- Modelled from the spec (section 4.2). -/
def TABLE_MAP_EVENT : Nat := 19
/-- Modelled from the spec (section 4.2). -/
def WRITE_ROWS_EVENTv0 : Nat := 22
/-- Modelled from the spec (section 4.2). -/
def WRITE_ROWS_EVENTv1 : Nat := 23
/-- Modelled from the spec (section 4.2). -/
def WRITE_ROWS_EVENTv2 : Nat := 30
/-- Modelled from the spec (section 4.2). -/
def UPDATE_ROWS_EVENTv0 : Nat := 21
/-- Modelled from the spec (section 4.2). -/
def UPDATE_ROWS_EVENTv1 : Nat := 24
/-- Modelled from the spec (section 4.2). -/
def UPDATE_ROWS_EVENTv2 : Nat := 31
/-- Modelled from the spec (section 4.2). -/
def DELETE_ROWS_EVENTv0 : Nat := 20
/-- Modelled from the spec (section 4.2). -/
def DELETE_ROWS_EVENTv1 : Nat := 25
/-- Modelled from the spec (section 4.2). -/
def DELETE_ROWS_EVENTv2 : Nat := 32

/-- The fields of `eventParser` that the decoders and the dump loop in
scope read and write.  Go maps become association lists; a missing
`tableMap` entry is the nil pointer `none`, a missing `tableSchemaMap`
entry is the nil (empty) slice. -/
structure ParserState where
  eventTypeHeaderLengths : List Nat := []
  tableMap : List (Nat × TableMapEvent) := []
  tableSchemaMap : List (Nat × List ColumnSchema) := []
  binlogFileName : String := ""
  binlogPosition : Nat := 0
  maxBinlogFileName : String := ""
  maxBinlogPosition : Nat := 0
  replicateDoDb : List String := []
  eventDo : List Bool := []
  dumpBinLogStatus : Nat := 1
  deriving DecidableEq, Repr

/-- `parser.tableMap[tableId]`: a missing key yields the nil pointer. -/
def lookupTableMap (l : List (Nat × TableMapEvent)) (k : Nat) :
    Option TableMapEvent :=
  (l.find? (fun p => p.1 == k)).map (·.2)

/-- `parser.tableSchemaMap[tableId]`: a missing key yields a nil slice. -/
def lookupSchemas (l : List (Nat × List ColumnSchema)) (k : Nat) :
    List ColumnSchema :=
  ((l.find? (fun p => p.1 == k)).map (·.2)).getD []

/-- `RowsEvent` (`event_rows.go`). -/
structure RowsEvent where
  header : EventHeader := {}
  tableId : Nat := 0
  flags : Nat := 0
  columnsPresentBitmap1 : List Nat := []
  columnsPresentBitmap2 : List Nat := []
  rows : List RowMap := []
  primary : String := ""
  deriving DecidableEq, Repr

/-- The primary-key scan run once per decoded row (`parseRowsEvent`,
lines 156-167): every schema column with `is_primary` and
`COLUMN_KEY == "PRI"` overwrites `event.primary` in turn. -/
def primaryFold (schemas : List ColumnSchema) (init : String) : String :=
  schemas.foldl
    (fun acc w =>
      if w.is_primary && (w.COLUMN_KEY == "PRI") then w.COLUMN_NAME else acc)
    init

/-- The `for buf.Len() > 0` row loop of `parseRowsEvent`.  Fuel models
Go's unbounded loop (which diverges when an iteration consumes nothing,
e.g. at column count zero); every claim input consumes bytes each
iteration, so the fuel `s.length + 1` is never exhausted there. -/
def rowsLoop (tmOpt : Option TableMapEvent) (schemas : List ColumnSchema)
    (fuel : Nat) (s : List Nat) (ev : RowsEvent) : GoRes RowsEvent :=
  match fuel with
  | 0 => .err "loop fuel exhausted"
  | f + 1 =>
    if s.isEmpty then .ok ev
    else
      match parseEventRow tmOpt schemas s with
      | .panicked m => .panicked m
      | .err m => .err m
      | .ok (row, s2) =>
        rowsLoop tmOpt schemas f s2
          { ev with rows := ev.rows ++ [row]
                    primary := primaryFold schemas ev.primary }

/-- `parseRowsEvent`: header, table id (4 or 6 bytes after indexing the
per-type post-header length table with `EventType - 1`, byte arithmetic
wrapping and Go panicking when out of range), flags, the v2 extra-data
skip of `extraDataLength / 8` bytes (read error discarded), column
count, presence bitmaps, table-map lookup, then the row loop.  The Go
`err` named return is overwritten by each read, so of the header reads
only the column-count error survives to the final `return`. -/
def parseRowsEvent (p : ParserState) (data : List Nat) : GoRes RowsEvent :=
  let (header, s1, _) := readEventHeader data
  match p.eventTypeHeaderLengths.get? ((header.EventType + 255) % 256) with
  | none => .panicked "index out of range"
  | some headerSize =>
    let tableIdSize := if headerSize = 6 then 4 else 6
    let (tableId, s2, _) := readFixedLengthInteger s1 tableIdSize
    let (flags, s3, _) := binReadLE 2 s2
    let s4 :=
      if header.EventType = UPDATE_ROWS_EVENTv2 ∨
          header.EventType = WRITE_ROWS_EVENTv2 ∨
          header.EventType = DELETE_ROWS_EVENTv2 then
        let (extraLen, r, _) := readFixedLengthInteger s3 2
        r.drop (extraLen / 8)
      else s3
    let (columnCount, s5, e5) := readLengthEncodedInt s4
    let (bm1, s6) := bufNext ((columnCount + 7) / 8) s5
    let (bm2, s7) :=
      if header.EventType = UPDATE_ROWS_EVENTv1 ∨
          header.EventType = UPDATE_ROWS_EVENTv2 then
        bufNext ((columnCount + 7) / 8) s6
      else ([], s6)
    let tmOpt := lookupTableMap p.tableMap tableId
    let ev0 : RowsEvent :=
      { header := header, tableId := tableId, flags := flags
        columnsPresentBitmap1 := bm1, columnsPresentBitmap2 := bm2 }
    match rowsLoop tmOpt (lookupSchemas p.tableSchemaMap tableId)
        (s7.length + 1) s7 ev0 with
    | .panicked m => .panicked m
    | .err m => .err m
    | .ok ev =>
      match e5 with
      | some m => .err m
      | none => .ok ev

/-! ## `parseEvent`'s ROTATE case (`binlog.go`, lines 124-144) -/

/-- Raw Go `string(bytes)` over a byte list (injective below 256). -/
def goStringOfBytes (l : List Nat) : String :=
  String.mk (l.map (fun b => Char.ofNat b))

/-- `RotateEvent` (`event_rotate.go`). -/
structure RotateEvent where
  header : EventHeader := {}
  position : Nat := 0
  filename : String := ""
  deriving DecidableEq, Repr

/-- `parseRotateEvent`: header, 8-byte little-endian position, then the
rest of the buffer is the next file's name.  The named error return
keeps only the last `binary.Read` error. -/
def parseRotateEvent (data : List Nat) : RotateEvent × Option String :=
  let (header, s1, _) := readEventHeader data
  let (position, s2, e2) := binReadLE 8 s1
  ({ header := header, position := position
     filename := goStringOfBytes s2 }, e2)

/-- `EventReslut` — the record handed to the dump loop (`binlog.go`). -/
structure EventReslut where
  Header : EventHeader := {}
  SchemaName : String := ""
  TableName : String := ""
  BinlogFileName : String := ""
  BinlogPosition : Nat := 0
  Query : String := ""
  Rows : List RowMap := []
  Primary : String := ""
  deriving DecidableEq, Repr

/-- The ROTATE arm of `parseEvent`: update the current file to the
event's filename, the current position to `uint32(position)`, and
reassign `tableSchemaMap` to a fresh empty map.  No other parser field
is touched. -/
def parseEventOnRotate (p : ParserState) (data : List Nat) :
    ParserState × EventReslut × Option String :=
  let (re, e) := parseRotateEvent data
  let p2 := { p with binlogFileName := re.filename
                     binlogPosition := re.position % 2 ^ 32
                     tableSchemaMap := [] }
  (p2, { Header := re.header
         BinlogFileName := p2.binlogFileName
         BinlogPosition := p2.binlogPosition }, e)

/-! ## The dump-loop filter / stop / deliver decision (`binlog.go`,
`DumpBinlog`, lines 547-571) -/

/-- What the dump loop does with one decoded, parsed event. -/
inductive DumpAction where
  | dropped
  | stopClose
  | delivered
  deriving DecidableEq, Repr

/-- The tail of `DumpBinlog`'s per-event handling: the database include
filter, the subscribed-event filter (a Go slice index on the event
type), the maximum-position check — which sets the command register
`dumpBinLogStatus` to 2 (close) and breaks without calling the callback
— and otherwise delivery followed by the position update. -/
def dumpFilterStep (p : ParserState) (ev : EventReslut) :
    GoRes (DumpAction × ParserState) :=
  if p.replicateDoDb.length > 0 ∧ ev.SchemaName ∉ p.replicateDoDb then
    .ok (.dropped, p)
  else
    match p.eventDo.get? ev.Header.EventType with
    | none => .panicked "index out of range"
    | some subscribed =>
      if subscribed = false then .ok (.dropped, p)
      else if ev.BinlogFileName = p.maxBinlogFileName ∧
          ev.Header.LogPos ≥ p.maxBinlogPosition then
        .ok (.stopClose, { p with dumpBinLogStatus := 2 })
      else
        .ok (.delivered, { p with binlogFileName := ev.BinlogFileName
                                  binlogPosition := ev.Header.LogPos })

/-- The order the claim C8 asserts for the stop condition: lexicographic
on the file name (bytewise, on the character list), then integer on the
position.  Declared only to compare with the equality test the source
performs. -/
def posLexGE (f1 : String) (pos1 : Nat) (f2 : String) (pos2 : Nat) : Prop :=
  f2.data < f1.data ∨ (f1 = f2 ∧ pos1 ≥ pos2)

instance (f1 : String) (p1 : Nat) (f2 : String) (p2 : Nat) :
    Decidable (posLexGE f1 p1 f2 p2) := by
  unfold posLexGE
  infer_instance

/-- The name of column `j` as `parseEventRow` reads it
(`tableSchemaMap[i].COLUMN_NAME`). -/
def colName (schemas : List ColumnSchema) (j : Nat) : String :=
  (schemas.getD j {}).COLUMN_NAME

/-- The dispatch type of column `j`
(`tableMap.columnMetaData[i].column_type`). -/
def colType (tm : TableMapEvent) (j : Nat) : FieldType :=
  (tm.columnMetaData.getD j {}).column_type

/-! ### Concrete fixtures for the dump-loop maximum-position decision -/

/-- A parser with an event subscription for every type and a configured
maximum of (`mysql-bin.000002`, 100). -/
def maxPosState : ParserState :=
  { maxBinlogFileName := "mysql-bin.000002", maxBinlogPosition := 100
    eventDo := List.replicate 36 true }

/-- An event in `mysql-bin.000003` at log position 4: lexicographically
past the configured maximum file, below it in raw position. -/
def maxPosEvent : EventReslut :=
  { Header := { EventType := 23, LogPos := 4 }
    BinlogFileName := "mysql-bin.000003" }

/-! ### Concrete fixtures for a two-primary-key rows event -/

/-- A table map for table id 42 with two TINY columns. -/
def twoPriTableMap : TableMapEvent :=
  { tableId := 42, columnTypes := [.TINY, .TINY]
    columnMetaData := [{ column_type := .TINY }, { column_type := .TINY }] }

/-- Column schemas `a` and `b`, both marked `COLUMN_KEY = "PRI"`. -/
def twoPriSchemas : List ColumnSchema :=
  [{ COLUMN_NAME := "a", COLUMN_KEY := "PRI", is_primary := true },
   { COLUMN_NAME := "b", COLUMN_KEY := "PRI", is_primary := true }]

/-- Parser state caching the table map and schemas for table id 42
(post-header length 6 for event type 23, so a 4-byte table id). -/
def twoPriState : ParserState :=
  { eventTypeHeaderLengths := List.replicate 23 6
    tableMap := [(42, twoPriTableMap)]
    tableSchemaMap := [(42, twoPriSchemas)] }

/-- Wire bytes of a WRITE_ROWS_EVENTv1 for table id 42: 19-byte header,
table id, flags, column count 2, presence bitmap, then one row image
(null bitmap 0, column bytes 5 and 7). -/
def twoPriBytes : List Nat :=
  [0, 0, 0, 0, 23, 0, 0, 0, 0, 0, 0, 0, 0, 0, 0, 0, 0, 0, 0] ++
    [42, 0, 0, 0] ++ [0, 0] ++ [2] ++ [3] ++ [0, 5, 7]

/-! ## Arithmetic facts about the Go `int8` embedding -/

theorem toInt8_lt (b : Nat) : toInt8 b < 128 := by
  unfold toInt8
  have h : (b + 128) % 256 < 256 := Nat.mod_lt _ (by omega)
  omega

theorem toInt8_le (b : Nat) : -128 ≤ toInt8 b := by
  unfold toInt8
  have h : (0 : Int) ≤ ((b + 128) % 256 : Nat) := Int.ofNat_nonneg _
  omega

theorem int8wrap_id {x : Int} (h1 : -128 ≤ x) (h2 : x < 128) :
    int8wrap x = x := by
  unfold int8wrap
  omega

theorem int8shl_mult_256 (x : Int) (k : Nat) (h : 8 ≤ k) :
    int8shl x k = 0 := by
  unfold int8shl int8wrap
  have h2 : (256 : Int) ∣ x * 2 ^ k := by
    refine Dvd.dvd.mul_left ?_ x
    calc (256 : Int) = 2 ^ 8 := by norm_num
    _ ∣ 2 ^ k := pow_dvd_pow 2 h
  obtain ⟨c, hc⟩ := h2
  rw [hc]
  omega

/-! ## Row-map key lemmas -/

theorem mem_mapKeys_mapSet {row : RowMap} {k k' : String} {v : Value} :
    k' ∈ mapKeys (mapSet row k v) ↔ k' = k ∨ k' ∈ mapKeys row := by
  unfold mapKeys mapSet
  simp only [List.map_cons, List.mem_cons, List.mem_map, List.mem_filter]
  constructor
  · rintro (h | ⟨p, ⟨hp, _⟩, rfl⟩)
    · exact Or.inl h
    · exact Or.inr ⟨p, hp, rfl⟩
  · rintro (h | ⟨p, hp, rfl⟩)
    · exact Or.inl h
    · by_cases hk : p.1 = k
      · exact Or.inl hk
      · exact Or.inr ⟨p, ⟨hp, by simpa using hk⟩, rfl⟩

/-! ## Each non-YEAR switch arm that succeeds stores a value

`parseEventRow` leaves a column's key absent only when the YEAR branch
reads a zero byte: every other branch of the type switch either fails
the row or stores a value under the column's name. -/

theorem binReadLE_cases (n : Nat) (s : List Nat) :
    binReadLE n s = (leVal (s.take n), s.drop n, none) ∨
    binReadLE n s = (0, [], some "unexpected EOF") := by
  unfold binReadLE
  split
  · exact Or.inl rfl
  · exact Or.inr rfl

theorem readFixedLengthInteger_cases (s : List Nat) (n : Nat) :
    readFixedLengthInteger s n = (leVal (s.take n), s.drop n, none) ∨
    readFixedLengthInteger s n = (leVal s, [], some "unexpected EOF") := by
  unfold readFixedLengthInteger
  split
  · exact Or.inl rfl
  · exact Or.inr rfl

theorem decodeShort_not_none (sch : ColumnSchema) (s s2 : List Nat) :
    decodeShort sch s ≠ .ok (none, s2) := by
  rcases binReadLE_cases 2 s with h | h <;> simp [decodeShort, h]

theorem decodeInt24_not_none (sch : ColumnSchema) (s s2 : List Nat) :
    decodeInt24 sch s ≠ .ok (none, s2) := by
  unfold decodeInt24
  split
  · rcases readFixedLengthInteger_cases s 3 with h | h <;> rw [h] <;> simp
  · match s with
    | [] => simp [bufReadByte]
    | [a] => simp [bufReadByte]
    | [a, b] => simp [bufReadByte]
    | a :: b :: c :: rest => simp [bufReadByte]

theorem decodeLong_not_none (sch : ColumnSchema) (s s2 : List Nat) :
    decodeLong sch s ≠ .ok (none, s2) := by
  rcases binReadLE_cases 4 s with h | h <;> simp [decodeLong, h]

theorem decodeLongLong_not_none (sch : ColumnSchema) (s s2 : List Nat) :
    decodeLongLong sch s ≠ .ok (none, s2) := by
  rcases binReadLE_cases 8 s with h | h <;> simp [decodeLongLong, h]

theorem decodeSet_not_none (sch : ColumnSchema) (meta : ColumnMeta)
    (s s2 : List Nat) : decodeSet sch meta s ≠ .ok (none, s2) := by
  unfold decodeSet
  split
  · simp
  · cases s <;> simp [bufReadByte]
  · cases hbt : bytesToUint16 (s.take 2) <;> simp [hbt]
  · cases hbt : bytesToUint24 (s.take 3) <;> simp [hbt]
  · cases hbt : bytesToUint32 (s.take 4) <;> simp [hbt]
  · simp

theorem decodeVarchar_not_none (meta : ColumnMeta) (s s2 : List Nat) :
    decodeVarchar meta s ≠ .ok (none, s2) := by
  unfold decodeVarchar
  split
  · rcases binReadLE_cases 2 s with h | h <;> rw [h] <;> simp <;> split <;> simp
  · cases s <;> simp [bufReadByte] <;> split <;> simp

theorem decodeBlob_not_none (meta : ColumnMeta) (s s2 : List Nat) :
    decodeBlob meta s ≠ .ok (none, s2) := by
  rcases readFixedLengthInteger_cases s meta.length_size with h | h <;>
    simp [decodeBlob, h]

theorem decodeTimestamp_not_none (s s2 : List Nat) :
    decodeTimestamp s ≠ .ok (none, s2) := by
  unfold decodeTimestamp
  cases hbt : bytesToUint32 (s.take 4) <;> simp

theorem decodeDatetime_not_none (s s2 : List Nat) :
    decodeDatetime s ≠ .ok (none, s2) := by
  rcases binReadLE_cases 8 s with h | h <;> simp [decodeDatetime, h]

theorem decodeTiny_not_none (sch : ColumnSchema) (s s2 : List Nat) :
    decodeTiny sch s ≠ .ok (none, s2) := by
  unfold decodeTiny
  cases s <;> simp [bufReadByte]

theorem decodeEnum_not_none (sch : ColumnSchema) (meta : ColumnMeta)
    (s s2 : List Nat) : decodeEnum sch meta s ≠ .ok (none, s2) := by
  unfold decodeEnum
  split
  · cases s <;> simp [bufReadByte] <;> split <;> simp
  · split <;> simp <;> split <;> simp

theorem decodeStringField_not_none (s s2 : List Nat) :
    decodeStringField s ≠ .ok (none, s2) := by
  unfold decodeStringField
  cases s <;> simp [bufReadByte]

theorem decodeBit_not_none (meta : ColumnMeta) (s s2 : List Nat) :
    decodeBit meta s ≠ .ok (none, s2) := by
  unfold decodeBit
  split
  split <;> simp

theorem decodeDate_not_none (s s2 : List Nat) :
    decodeDate s ≠ .ok (none, s2) := by
  unfold decodeDate
  split <;> simp <;> split <;> simp

theorem decodeTime_not_none (s s2 : List Nat) :
    decodeTime s ≠ .ok (none, s2) := by
  unfold decodeTime
  split <;> simp <;> split <;> simp

theorem decodeTime2_not_none (s s2 : List Nat) :
    decodeTime2 s ≠ .ok (none, s2) := by
  unfold decodeTime2
  simp

theorem decodeTimestamp2_not_none (s s2 : List Nat) :
    decodeTimestamp2 s ≠ .ok (none, s2) := by
  unfold decodeTimestamp2
  simp

theorem decodeDatetime2_not_none (s s2 : List Nat) :
    decodeDatetime2 s ≠ .ok (none, s2) := by
  unfold decodeDatetime2
  simp

theorem ifLenArm_not_none (n : Nat) (s s2 : List Nat) (v : Value) :
    (if n ≤ s.length then GoRes.ok (some v, s.drop n)
      else GoRes.err "unexpected EOF") ≠ GoRes.ok (none, s2) := by
  split <;> simp

theorem errArm_not_none (o : Option FieldType) (f : FieldType → String)
    (s2 : List Nat) :
    (match o with
      | none => GoRes.panicked "index out of range"
      | some t => GoRes.err (f t)) ≠
      GoRes.ok ((none : Option Value), s2) := by
  cases o <;> simp

theorem newDecArm_not_none (r : GoRes (String × List Nat)) (s2 : List Nat) :
    (match r with
      | .panicked m => GoRes.panicked m
      | .err m => GoRes.err m
      | .ok (q, rest) => GoRes.ok (some (Value.str q), rest)) ≠
      GoRes.ok (none, s2) := by
  cases r with
  | ok a => cases a; simp
  | err m => simp
  | panicked m => simp

theorem decodeColumn_none_year (tm : TableMapEvent) (i : Nat)
    (sch : ColumnSchema) (meta : ColumnMeta) (s s2 : List Nat)
    (h : decodeColumn tm i sch meta s = .ok (none, s2)) :
    meta.column_type = .YEAR := by
  cases hmt : meta.column_type
  case YEAR => rfl
  all_goals unfold decodeColumn at h
  all_goals rw [hmt] at h
  case NULLT => simp at h
  case TINY => exact absurd (show decodeTiny sch s = .ok (none, s2) from h) (decodeTiny_not_none sch s s2)
  case SHORT => exact absurd (show decodeShort sch s = .ok (none, s2) from h) (decodeShort_not_none sch s s2)
  case INT24 => exact absurd (show decodeInt24 sch s = .ok (none, s2) from h) (decodeInt24_not_none sch s s2)
  case LONG => exact absurd (show decodeLong sch s = .ok (none, s2) from h) (decodeLong_not_none sch s s2)
  case LONGLONG => exact absurd (show decodeLongLong sch s = .ok (none, s2) from h) (decodeLongLong_not_none sch s s2)
  case FLOAT => exact absurd h (ifLenArm_not_none 4 s s2 (Value.f32raw (s.take 4)))
  case DOUBLE => exact absurd h (ifLenArm_not_none 8 s s2 (Value.f64raw (s.take 8)))
  case DECIMAL => exact absurd h (errArm_not_none (tm.columnTypes.get? i) (fun t => "parseEventRow unimplemented for field type " ++ fieldTypeName t) s2)
  case NEWDECIMAL => exact absurd h (newDecArm_not_none (decodeNewDecimal meta.precision meta.decimals s) s2)
  case VARCHAR => exact absurd (show decodeVarchar meta s = .ok (none, s2) from h) (decodeVarchar_not_none meta s s2)
  case STRINGT => exact absurd (show decodeStringField s = .ok (none, s2) from h) (decodeStringField_not_none s s2)
  case ENUM => exact absurd (show decodeEnum sch meta s = .ok (none, s2) from h) (decodeEnum_not_none sch meta s s2)
  case SETT => exact absurd (show decodeSet sch meta s = .ok (none, s2) from h) (decodeSet_not_none sch meta s s2)
  case BLOB => exact absurd (show decodeBlob meta s = .ok (none, s2) from h) (decodeBlob_not_none meta s s2)
  case TINY_BLOB => exact absurd (show decodeBlob meta s = .ok (none, s2) from h) (decodeBlob_not_none meta s s2)
  case MEDIUM_BLOB => exact absurd (show decodeBlob meta s = .ok (none, s2) from h) (decodeBlob_not_none meta s s2)
  case LONG_BLOB => exact absurd (show decodeBlob meta s = .ok (none, s2) from h) (decodeBlob_not_none meta s s2)
  case VAR_STRING => exact absurd (show decodeBlob meta s = .ok (none, s2) from h) (decodeBlob_not_none meta s s2)
  case BIT => exact absurd (show decodeBit meta s = .ok (none, s2) from h) (decodeBit_not_none meta s s2)
  case GEOMETRY => exact absurd h (errArm_not_none (tm.columnTypes.get? i) (fun t => "parseEventRow unimplemented for field type " ++ fieldTypeName t) s2)
  case DATE => exact absurd (show decodeDate s = .ok (none, s2) from h) (decodeDate_not_none s s2)
  case NEWDATE => exact absurd (show decodeDate s = .ok (none, s2) from h) (decodeDate_not_none s s2)
  case TIME => exact absurd (show decodeTime s = .ok (none, s2) from h) (decodeTime_not_none s s2)
  case TIME2 => exact absurd (show decodeTime2 s = .ok (none, s2) from h) (decodeTime2_not_none s s2)
  case TIMESTAMP => exact absurd (show decodeTimestamp s = .ok (none, s2) from h) (decodeTimestamp_not_none s s2)
  case TIMESTAMP2 => exact absurd (show decodeTimestamp2 s = .ok (none, s2) from h) (decodeTimestamp2_not_none s s2)
  case DATETIME => exact absurd (show decodeDatetime s = .ok (none, s2) from h) (decodeDatetime_not_none s s2)
  case DATETIME2 => exact absurd (show decodeDatetime2 s = .ok (none, s2) from h) (decodeDatetime2_not_none s s2)
  case UNKNOWN => exact absurd h (errArm_not_none (tm.columnTypes.get? i) (fun t => "Unknown FieldType " ++ fieldTypeName t) s2)

theorem mem_mapKeys_mapSet_self (row : RowMap) (k : String) (v : Value) :
    k ∈ mapKeys (mapSet row k v) := mem_mapKeys_mapSet.mpr (Or.inl rfl)

theorem parseRowCols_keys (tm : TableMapEvent) (schemas : List ColumnSchema)
    (nbm : List Nat) :
    ∀ (r i : Nat) (s : List Nat) (row row2 : RowMap) (s2 : List Nat),
      parseRowCols tm schemas nbm i r s row = .ok (row2, s2) →
      (∀ k, k ∈ mapKeys row2 →
        k ∈ mapKeys row ∨ ∃ j, i ≤ j ∧ j < i + r ∧ k = colName schemas j) ∧
      (∀ k, k ∈ mapKeys row → k ∈ mapKeys row2) ∧
      (∀ j, i ≤ j → j < i + r → colType tm j ≠ .YEAR →
        colName schemas j ∈ mapKeys row2) := by
  intro r
  induction r with
  | zero =>
    intro i s row row2 s2 h
    simp only [parseRowCols, GoRes.ok.injEq, Prod.mk.injEq] at h
    obtain ⟨rfl, rfl⟩ := h
    exact ⟨fun k hk => Or.inl hk, fun k hk => hk,
      fun j hj1 hj2 => by omega⟩
  | succ r ih =>
    intro i s row row2 s2 h
    simp only [parseRowCols] at h
    split at h
    · simp at h
    · rename_i sch hsch
      have hname : colName schemas i = sch.COLUMN_NAME := by
        rw [List.get?_eq_getElem?] at hsch
        simp [colName, List.getD, hsch]
      split at h
      · simp at h
      · simp at h
      · -- null-bitmap bit set: the key is stored with a nil value
        obtain ⟨s1, s2p, s3⟩ :=
          ih (i + 1) s (mapSet row sch.COLUMN_NAME .null) row2 s2 h
        refine ⟨?_, ?_, ?_⟩
        · intro k hk
          rcases s1 k hk with hk2 | ⟨j, hj1, hj2, rfl⟩
          · rcases mem_mapKeys_mapSet.mp hk2 with rfl | hk3
            · exact Or.inr ⟨i, le_refl i, by omega, hname.symm⟩
            · exact Or.inl hk3
          · exact Or.inr ⟨j, by omega, by omega, rfl⟩
        · intro k hk
          exact s2p k (mem_mapKeys_mapSet.mpr (Or.inr hk))
        · intro j hj1 hj2 hy
          by_cases hji : j = i
          · subst hji
            rw [hname]
            exact s2p _ (mem_mapKeys_mapSet_self ..)
          · exact s3 j (by omega) (by omega) hy
      · -- bit clear: decode through the type switch
        split at h
        · simp at h
        · rename_i meta hmeta
          have htype : colType tm i = meta.column_type := by
            rw [List.get?_eq_getElem?] at hmeta
            simp [colType, List.getD, hmeta]
          split at h
          · simp at h
          · simp at h
          · rename_i opt snew hdec
            cases opt with
            | some v =>
              obtain ⟨s1, s2p, s3⟩ :=
                ih (i + 1) snew (mapSet row sch.COLUMN_NAME v) row2 s2 h
              refine ⟨?_, ?_, ?_⟩
              · intro k hk
                rcases s1 k hk with hk2 | ⟨j, hj1, hj2, rfl⟩
                · rcases mem_mapKeys_mapSet.mp hk2 with rfl | hk3
                  · exact Or.inr ⟨i, le_refl i, by omega, hname.symm⟩
                  · exact Or.inl hk3
                · exact Or.inr ⟨j, by omega, by omega, rfl⟩
              · intro k hk
                exact s2p k (mem_mapKeys_mapSet.mpr (Or.inr hk))
              · intro j hj1 hj2 hy
                by_cases hji : j = i
                · subst hji
                  rw [hname]
                  exact s2p _ (mem_mapKeys_mapSet_self ..)
                · exact s3 j (by omega) (by omega) hy
            | none =>
              have hY : meta.column_type = .YEAR :=
                decodeColumn_none_year tm i sch meta s snew hdec
              obtain ⟨s1, s2p, s3⟩ := ih (i + 1) snew row row2 s2 h
              refine ⟨?_, ?_, ?_⟩
              · intro k hk
                rcases s1 k hk with hk2 | ⟨j, hj1, hj2, rfl⟩
                · exact Or.inl hk2
                · exact Or.inr ⟨j, by omega, by omega, rfl⟩
              · exact s2p
              · intro j hj1 hj2 hy
                by_cases hji : j = i
                · subst hji
                  exact absurd (htype.trans hY) hy
                · exact s3 j (by omega) (by omega) hy

/-! ## Claim theorems -/

/-- C1 (counterexample): a non-null TINY column of a `tinyint(1)` schema
column decoded from wire byte 2 stores the Go `int8` value 2, not a
boolean — refuting the claim that a boolean is stored for every possible
wire byte value. -/
theorem claim1_counterexample :
    decodeColumn {} 0 { COLUMN_TYPE := "tinyint(1)", is_bool := true }
        { column_type := .TINY } [2] =
      .ok (some (.i8 2), []) ∧
    (Value.i8 2).isBoolean = false :=
  ⟨rfl, rfl⟩

/-- C1 (amended): for a TINY column whose schema type is `tinyint(1)`
(`is_bool`), wire byte 1 decodes to `true` and wire byte 0 to `false`;
every other byte value falls back to an unsigned or signed 8-bit integer
according to the schema's `unsigned` flag. -/
theorem claim1_theorem (tm : TableMapEvent) (i : Nat) (sch : ColumnSchema)
    (b : Nat) (rest : List Nat) (h : sch.is_bool = true) :
    decodeColumn tm i sch { column_type := .TINY } (b :: rest) =
      .ok (some (if b = 1 then .boolean true
        else if b = 0 then .boolean false
        else if sch.unsigned then .u8 b else .i8 (toInt8 b)), rest) := by
  show decodeTiny sch (b :: rest) = _
  match b with
  | 0 => simp [decodeTiny, bufReadByte, h]
  | 1 => simp [decodeTiny, bufReadByte, h]
  | n + 2 => simp [decodeTiny, bufReadByte, h]

/-- C1 (witness): the amended theorem applied at a `tinyint(1)` column
with wire byte 1. -/
theorem claim1_witness :
    ({ is_bool := true : ColumnSchema }).is_bool = true ∧
    decodeColumn {} 0 { is_bool := true } { column_type := .TINY } [1, 9] =
      .ok (some (.boolean true), [9]) :=
  ⟨rfl, by simpa using claim1_theorem {} 0 { is_bool := true } 1 [9] rfl⟩

/-- C2 (counterexample): a WRITE_ROWS_EVENTv1 for table id 42 decoded
against a parser whose table-map cache is empty does not produce an
error return — it panics with a nil-pointer dereference in
`parseEventRow` (`tableMap.columnTypes` through the nil pointer). -/
theorem claim2_counterexample :
    parseRowsEvent { eventTypeHeaderLengths := List.replicate 23 6 }
        ([0, 0, 0, 0, 23, 0, 0, 0, 0, 0, 0, 0, 0, 0, 0, 0, 0, 0, 0] ++
          [42, 0, 0, 0] ++ [0, 0] ++ [2] ++ [3] ++ [0, 5, 7]) =
      .panicked "invalid memory address or nil pointer dereference" := by
  decide

/-- C2 (amended): whenever the table-map cache has no entry for the rows
event's table id (a Go nil pointer) and a row image remains to decode,
`parseEventRow` panics — decoding crashes instead of returning an error
value. -/
theorem claim2_theorem (schemas : List ColumnSchema) (s : List Nat) :
    parseEventRow none schemas s =
      .panicked "invalid memory address or nil pointer dereference" := rfl

/-- C3: for precision 14 and 4 decimals (one 9-digit integral group, no
9-digit fractional group), the decoder emits one nine-digit fractional
group where the claimed layout has none: the fractional loop iterates
`uncomp_integral` times instead of `uncomp_fractional`. -/
theorem claim3_theorem :
    decodeNewDecimal 14 4 (128 :: List.replicate 10 0) =
      .ok ("0000000000.0000000000000", []) ∧
    specNewDecimal 14 4 (128 :: List.replicate 10 0) =
      .ok ("0000000000.0000", [0, 0, 0, 0]) ∧
    decodeNewDecimal 14 4 (128 :: List.replicate 10 0) ≠
      specNewDecimal 14 4 (128 :: List.replicate 10 0) :=
  ⟨by decide, by decide, by decide⟩

/-- C4: the signed INT24 path returns the sign-extended low byte alone —
the Go `int8` shifts `b<<8` and `c<<16` truncate to zero — so bytes
(0, 1, 0), worth 256 as a 24-bit little-endian integer, decode to 0. -/
theorem claim4_theorem :
    (∀ (tm : TableMapEvent) (i : Nat) (a b c : Nat) (rest : List Nat),
      decodeColumn tm i { unsigned := false } { column_type := .INT24 }
        (a :: b :: c :: rest) = .ok (some (.i32 (toInt8 a)), rest)) ∧
    decodeColumn {} 0 { unsigned := false } { column_type := .INT24 }
      [0, 1, 0] = .ok (some (.i32 0), []) ∧
    (0 : Int) ≠ 0 + 1 * 2 ^ 8 + 0 * 2 ^ 16 := by
  refine ⟨?_, by decide, by decide⟩
  intro tm i a b c rest
  simp [decodeColumn, decodeInt24, bufReadByte]
  rw [int8shl_mult_256 _ 8 le_rfl, int8shl_mult_256 _ 16 (by norm_num)]
  simp only [int8add, add_zero]
  rw [int8wrap_id (toInt8_le a) (toInt8_lt a)]
  rw [int8wrap_id (toInt8_le a) (toInt8_lt a)]

/-- C5: a SET column with metadata size 0 ends up holding the empty
member list, not null — the `case 0` arm's nil is overwritten because
the Go `break` only exits the switch, after which the member-collection
code runs with index 0. -/
theorem claim5_theorem :
    (∀ (tm : TableMapEvent) (i : Nat) (sch : ColumnSchema) (s : List Nat),
      decodeColumn tm i sch { column_type := .SETT, size := 0 } s =
        .ok (some (.strList []), s)) ∧
    Value.strList [] ≠ Value.null := by
  refine ⟨?_, by decide⟩
  intro tm i sch s
  simp [decodeColumn, decodeSet]
  intro a b _
  exact Nat.zero_and _

/-- C6 (counterexample): after a ROTATE event the schema cache is empty
but the table-map cache still holds its entry for table id 42 — refuting
the claim that both caches are empty. -/
theorem claim6_counterexample :
    (parseEventOnRotate
        { tableMap := [(42, twoPriTableMap)]
          tableSchemaMap := [(42, twoPriSchemas)]
          binlogFileName := "f1", binlogPosition := 7 }
        ([0, 0, 0, 0, 4, 0, 0, 0, 0, 0, 0, 0, 0, 0, 0, 0, 0, 0, 0] ++
          [4, 0, 0, 0, 0, 0, 0, 0] ++ [102, 50])).1.tableSchemaMap = [] ∧
    (parseEventOnRotate
        { tableMap := [(42, twoPriTableMap)]
          tableSchemaMap := [(42, twoPriSchemas)]
          binlogFileName := "f1", binlogPosition := 7 }
        ([0, 0, 0, 0, 4, 0, 0, 0, 0, 0, 0, 0, 0, 0, 0, 0, 0, 0, 0] ++
          [4, 0, 0, 0, 0, 0, 0, 0] ++ [102, 50])).1.tableMap ≠ [] :=
  ⟨rfl, by decide⟩

/-- C6 (amended): the ROTATE arm of `parseEvent` sets the current file
to the event's filename and the position to `uint32(position)`, and
empties the schema cache; the table-map cache is left untouched. -/
theorem claim6_theorem (p : ParserState) (data : List Nat) :
    (parseEventOnRotate p data).1.binlogFileName =
      (parseRotateEvent data).1.filename ∧
    (parseEventOnRotate p data).1.binlogPosition =
      (parseRotateEvent data).1.position % 2 ^ 32 ∧
    (parseEventOnRotate p data).1.tableSchemaMap = [] ∧
    (parseEventOnRotate p data).1.tableMap = p.tableMap :=
  ⟨rfl, rfl, rfl, rfl⟩

/-- C7 (counterexample): a row consisting of one non-null YEAR column
with wire byte 0 decodes to an empty row map — the column's key is
absent, so the key set does not equal the schema's name set. -/
theorem claim7_counterexample :
    parseEventRow
        (some { columnTypes := [.YEAR]
                columnMetaData := [{ column_type := .YEAR }] })
        ([{ COLUMN_NAME := "y" }] : List ColumnSchema) [0, 0] =
      .ok ([], []) ∧
    ([{ COLUMN_NAME := "y" }] : List ColumnSchema).map (·.COLUMN_NAME) =
      ["y"] ∧
    "y" ∉ mapKeys [] :=
  ⟨rfl, rfl, by decide⟩

/-- C7 (amended): for a successfully decoded row, every key of the row
map is a schema column name, and every column whose dispatch type is not
YEAR contributes its name; only YEAR columns (those decoded from byte 0)
may be absent. -/
theorem claim7_theorem (tm : TableMapEvent) (schemas : List ColumnSchema)
    (s : List Nat) (row : RowMap) (s2 : List Nat)
    (hlen : schemas.length = tm.columnTypes.length)
    (h : parseEventRow (some tm) schemas s = .ok (row, s2)) :
    (∀ k, k ∈ mapKeys row → k ∈ schemas.map (·.COLUMN_NAME)) ∧
    (∀ j, j < tm.columnTypes.length → colType tm j ≠ .YEAR →
      colName schemas j ∈ mapKeys row) := by
  have h2 : parseRowCols tm schemas
      (s.take ((tm.columnTypes.length + 7) / 8)) 0 tm.columnTypes.length
      (s.drop ((tm.columnTypes.length + 7) / 8)) [] = .ok (row, s2) := h
  obtain ⟨s1, _, s3⟩ :=
    parseRowCols_keys tm schemas _ _ _ _ _ _ _ h2
  constructor
  · intro k hk
    rcases s1 k hk with hk2 | ⟨j, _, hj2, rfl⟩
    · simp [mapKeys] at hk2
    · have hj3 : j < schemas.length := by omega
      rw [colName, List.getD_eq_getElem _ _ hj3]
      exact List.mem_map.mpr ⟨schemas[j], List.getElem_mem hj3, rfl⟩
  · intro j hj hy
    exact s3 j (Nat.zero_le j) (by omega) hy

/-- C7 (witness): the amended theorem applied to a one-TINY-column row,
whose name "a" is then a key of the decoded row map. -/
theorem claim7_witness :
    colName ([{ COLUMN_NAME := "a" }] : List ColumnSchema) 0 ∈
      mapKeys [("a", Value.i8 5)] :=
  (claim7_theorem
      { columnTypes := [.TINY], columnMetaData := [{ column_type := .TINY }] }
      ([{ COLUMN_NAME := "a" }] : List ColumnSchema) [0, 5]
      [("a", Value.i8 5)] [] (by decide) (by decide)).2 0
    (by decide) (by decide)

/-- C8 (counterexample): with maximum (`mysql-bin.000002`, 100), a
filter-passing event at (`mysql-bin.000003`, 4) is lexicographically at
or past the maximum, yet the dump loop delivers it instead of stopping:
the source compares the file name by equality only. -/
theorem claim8_counterexample :
    posLexGE maxPosEvent.BinlogFileName maxPosEvent.Header.LogPos
      maxPosState.maxBinlogFileName maxPosState.maxBinlogPosition ∧
    dumpFilterStep maxPosState maxPosEvent =
      .ok (.delivered,
        { maxPosState with binlogFileName := "mysql-bin.000003"
                           binlogPosition := 4 }) :=
  ⟨by decide, by decide⟩

/-- C8 (amended): for a filter-passing event, the dump loop stops — with
command register set to close (2) and without delivering — exactly when
the event's file EQUALS the configured maximum file and its log position
is at or past the maximum position; otherwise it delivers and advances
the recorded position. -/
theorem claim8_theorem (p : ParserState) (ev : EventReslut)
    (hdb : p.replicateDoDb = [] ∨ ev.SchemaName ∈ p.replicateDoDb)
    (hsub : p.eventDo.get? ev.Header.EventType = some true) :
    dumpFilterStep p ev =
      if ev.BinlogFileName = p.maxBinlogFileName ∧
          ev.Header.LogPos ≥ p.maxBinlogPosition then
        .ok (.stopClose, { p with dumpBinLogStatus := 2 })
      else
        .ok (.delivered, { p with binlogFileName := ev.BinlogFileName
                                  binlogPosition := ev.Header.LogPos }) := by
  unfold dumpFilterStep
  have hguard :
      ¬(p.replicateDoDb.length > 0 ∧ ev.SchemaName ∉ p.replicateDoDb) := by
    rcases hdb with h | h
    · simp [h]
    · tauto
  rw [if_neg hguard, hsub]
  simp

/-- C8 (witness): the amended theorem applied at the fixture state and
an event inside the maximum file at the maximum position: the loop
stops with command register 2. -/
theorem claim8_witness :
    dumpFilterStep maxPosState
        { Header := { EventType := 23, LogPos := 100 }
          BinlogFileName := "mysql-bin.000002" } =
      .ok (.stopClose, { maxPosState with dumpBinLogStatus := 2 }) := by
  have h := claim8_theorem maxPosState
    { Header := { EventType := 23, LogPos := 100 }
      BinlogFileName := "mysql-bin.000002" }
    (Or.inl rfl) (by decide)
  simpa using h

/-- C9 (counterexample): a rows event over a schema whose columns `a`
and `b` are both `PRI` reports primary `b` — the last such column, not
the first. -/
theorem claim9_counterexample :
    parseRowsEvent twoPriState twoPriBytes =
      .ok { header := { EventType := 23 }, tableId := 42
            columnsPresentBitmap1 := [3]
            rows := [[("b", Value.i8 7), ("a", Value.i8 5)]]
            primary := "b" } ∧
    ((twoPriSchemas.filter
        (fun w => w.is_primary && (w.COLUMN_KEY == "PRI"))).map
      (·.COLUMN_NAME)).head? = some "a" ∧
    "b" ≠ "a" :=
  ⟨by decide, by decide, by decide⟩

/-- C9 (amended): the per-row primary-key scan leaves in
`event.primary` the COLUMN_NAME of the LAST schema column carrying
`is_primary` and `COLUMN_KEY == "PRI"` (or the previous value when no
column qualifies): the loop overwrites without breaking. -/
theorem claim9_theorem (schemas : List ColumnSchema) (init : String) :
    primaryFold schemas init =
      ((schemas.filter (fun w => w.is_primary && (w.COLUMN_KEY == "PRI"))).map
        (·.COLUMN_NAME)).getLastD init := by
  induction schemas generalizing init with
  | nil => rfl
  | cons w ws ih =>
    unfold primaryFold at ih ⊢
    simp only [List.foldl_cons, List.filter_cons]
    by_cases h : (w.is_primary && (w.COLUMN_KEY == "PRI")) = true
    · rw [if_pos h, if_pos h]
      simp only [List.map_cons, List.getLastD_cons]
      exact ih _
    · rw [if_neg h, if_neg h]
      exact ih _

/-- C10: an ENUM column with a 1-byte (or 2-byte) index `i` such that
1 ≤ i ≤ number of enum literals decodes to literal `i - 1` (zero-based);
the index 0 — MySQL's invalid empty enum — hits the out-of-range slice
access `enum_values[-1]` and panics, since the branch has no null or
error path. -/
theorem claim10_theorem (tm : TableMapEvent) (j : Nat) (vals : List String)
    (b : Nat) (rest : List Nat) (h1 : 1 ≤ b) (h2 : b ≤ vals.length) :
    decodeColumn tm j { enum_values := vals }
        { column_type := .ENUM, size := 1 } (b :: rest) =
      .ok (some (.str (vals.getD (b - 1) "")), rest) ∧
    decodeColumn tm j { enum_values := vals }
        { column_type := .ENUM, size := 1 } (0 :: rest) =
      .panicked "index out of range" ∧
    decodeColumn tm j { enum_values := vals }
        { column_type := .ENUM, size := 2 } (b :: 0 :: rest) =
      .ok (some (.str (vals.getD (b - 1) "")), rest) := by
  have hcond : 1 ≤ b ∧ b - 1 < vals.length := by omega
  refine ⟨?_, ?_, ?_⟩
  · show decodeEnum { enum_values := vals }
      { column_type := .ENUM, size := 1 } (b :: rest) = _
    simp [decodeEnum, bufReadByte, hcond]
  · show decodeEnum { enum_values := vals }
      { column_type := .ENUM, size := 1 } (0 :: rest) = _
    simp [decodeEnum, bufReadByte]
  · show decodeEnum { enum_values := vals }
      { column_type := .ENUM, size := 2 } (b :: 0 :: rest) = _
    simp [decodeEnum, bytesToUint16, hcond]

/-- C10 (witness): the theorem applied at enum literals a, b, c and wire
index 2, which decodes to the second literal; index 0 panics. -/
theorem claim10_witness :
    decodeColumn {} 0 { enum_values := ["a", "b", "c"] }
        { column_type := .ENUM, size := 1 } [2, 7] =
      .ok (some (.str "b"), [7]) ∧
    decodeColumn {} 0 { enum_values := ["a", "b", "c"] }
        { column_type := .ENUM, size := 1 } [0, 7] =
      .panicked "index out of range" := by
  have h := claim10_theorem {} 0 ["a", "b", "c"] 2 [7]
    (by decide) (by decide)
  exact ⟨h.1, h.2.1⟩

end Bubod
